import Mathlib

/-
Verification of the OpenDiablo2 map-entity motion kernel (package d2mapentity)
and the d2gui widgetBase event methods, shallowly embedded in Lean 4.

Real-number quantities (Go float64) are modelled as rationals; Go's
truncating conversions and math.Mod are modelled exactly.  The helpers
AlmostEqual / AdjustWithRemainder live in the d2common package of the same
repository (not part of the provided sources) and are modelled from the
specification.  The trigonometric step vector produced by getStepLength
(cos/sin of a bearing) is not shallowly embeddable; Step is therefore
parametrised by the per-axis step vector that getStepLength would return.
-/

/-- Go conversion of a float to int: truncation toward zero. -/
def goTrunc (q : ℚ) : ℤ :=
  if 0 ≤ q then ⌊q⌋ else ⌈q⌉

/-- Go math.Mod: remainder with the sign of the dividend,
`x - y * trunc(x / y)`. -/
def goMod (x y : ℚ) : ℚ :=
  x - y * goTrunc (x / y)

/-- Modelled from the spec: d2common.AlmostEqual (not under the provided
sources) — true when the two values are within the absolute tolerance. -/
def AlmostEqual (a b threshold : ℚ) : Bool :=
  decide (|a - b| < threshold)

/-- Modelled from the spec: d2common.AdjustWithRemainder (not under the
provided sources) — advances `src` by `adj` toward `tgt`, clamping at the
target and carrying any leftover step magnitude as a remainder. -/
def AdjustWithRemainder (src adj tgt : ℚ) : ℚ × ℚ :=
  let nv := src + adj
  if 0 < adj ∧ tgt < nv then (tgt, nv - tgt)
  else if adj < 0 ∧ nv < tgt then (tgt, nv - tgt)
  else (nv, 0)

/-- A waypoint of the movement path (d2common.PathTile; the source stores
them type-erased as d2astar.Pather and downcasts on use). -/
structure PathTile where
  X : ℚ
  Y : ℚ
deriving DecidableEq, Repr

/-- Entity motion state (struct mapEntity).  The nullable callbacks
`done` and `directioner` are modelled by whether they are registered;
Step reports the invocation of `done` in its result. -/
structure mapEntity where
  LocationX : ℚ
  LocationY : ℚ
  TileX : ℤ
  TileY : ℤ
  subcellX : ℚ
  subcellY : ℚ
  offsetX : ℤ
  offsetY : ℤ
  TargetX : ℚ
  TargetY : ℚ
  Speed : ℚ
  path : List PathTile
  drawLayer : ℤ
  done : Bool
  directioner : Bool
deriving DecidableEq, Repr

/-- createMapEntity: initial state at integer world coordinates (x, y).
Go integer division `x / 5` truncates toward zero, as does goTrunc. -/
def createMapEntity (x y : ℤ) : mapEntity where
  LocationX := (x : ℚ)
  LocationY := (y : ℚ)
  TargetX := (x : ℚ)
  TargetY := (y : ℚ)
  TileX := goTrunc ((x : ℚ) / 5)
  TileY := goTrunc ((y : ℚ) / 5)
  subcellX := 1 + goMod (x : ℚ) 5
  subcellY := 1 + goMod (y : ℚ) 5
  offsetX := 0
  offsetY := 0
  Speed := 6
  drawLayer := 0
  path := []
  done := false
  directioner := false

/-- GetLayer returns the draw layer for this entity. -/
def mapEntity.GetLayer (m : mapEntity) : ℤ :=
  m.drawLayer

/-- SetPath sets the entity movement path and the completion callback. -/
def mapEntity.SetPath (m : mapEntity) (p : List PathTile) (d : Bool) : mapEntity :=
  { m with path := p, done := d }

/-- ClearPath clears the entity movement path. -/
def mapEntity.ClearPath (m : mapEntity) : mapEntity :=
  { m with path := [] }

/-- SetSpeed sets the entity movement speed. -/
def mapEntity.SetSpeed (m : mapEntity) (speed : ℚ) : mapEntity :=
  { m with Speed := speed }

/-- GetSpeed returns the entity movement speed. -/
def mapEntity.GetSpeed (m : mapEntity) : ℚ :=
  m.Speed

/-- HasPathFinding returns false if the length of the movement path is 0. -/
def mapEntity.HasPathFinding (m : mapEntity) : Bool :=
  decide (0 < m.path.length)

/-- IsAtTarget: within 0.0001 of the target on both axes and no path. -/
def mapEntity.IsAtTarget (m : mapEntity) : Bool :=
  decide (|m.LocationX - m.TargetX| < 1 / 10000) &&
    decide (|m.LocationY - m.TargetY| < 1 / 10000) && !m.HasPathFinding

/-- SetTarget sets the target coordinates and the completion callback.
In the source it also synchronously invokes the registered directioner
with angleToDirection of the bearing — an external effect computed with
floating-point trigonometry that touches no state modelled here. -/
def mapEntity.SetTarget (m : mapEntity) (tx ty : ℚ) (d : Bool) : mapEntity :=
  { m with TargetX := tx, TargetY := ty, done := d }

/-- angleToDirection: 64-bucket discretisation of a bearing in degrees.
Go's `int(...)` conversion truncates toward zero (goTrunc). -/
def angleToDirection (angle : ℚ) : ℤ :=
  let degreesPerDirection : ℚ := 360 / 64
  let offset : ℚ := 45 - degreesPerDirection / 2
  let newDirection : ℤ := goTrunc ((angle - offset) / degreesPerDirection)
  if 64 ≤ newDirection then newDirection - 64
  else if newDirection < 0 then newDirection + 64
  else newDirection

/-- GetPosition returns the entity's current tile position. -/
def mapEntity.GetPosition (m : mapEntity) : ℚ × ℚ :=
  ((m.TileX : ℚ), (m.TileY : ℚ))

/-- GetPositionF returns the entity's current sub-tile position. -/
def mapEntity.GetPositionF (m : mapEntity) : ℚ × ℚ :=
  ((m.TileX : ℚ) + m.subcellX / 5, (m.TileY : ℚ) + m.subcellY / 5)

/-- Recompute the derived subcell and tile coordinates from the position,
exactly as the assignments inside Step do. -/
def mapEntity.updateDerived (m : mapEntity) : mapEntity :=
  { m with
    subcellX := 1 + goMod m.LocationX 5
    subcellY := 1 + goMod m.LocationY 5
    TileX := goTrunc (m.LocationX / 5)
    TileY := goTrunc (m.LocationY / 5) }

/-- The coarse-tolerance stage of Step's inner loop: when within 0.01 of
the target on both axes, either pop the head waypoint into a new target
(keeping the same completion callback), or — with no path left — snap the
position exactly onto the target and recompute the derived coordinates. -/
def mapEntity.retargetOrSnap (m : mapEntity) : mapEntity :=
  if AlmostEqual m.LocationX m.TargetX (1 / 100) &&
      AlmostEqual m.LocationY m.TargetY (1 / 100) then
    match m.path with
    | w :: rest => { m.SetTarget (w.X * 5) (w.Y * 5) m.done with path := rest }
    | [] => mapEntity.updateDerived
        { m with LocationX := m.TargetX, LocationY := m.TargetY }
  else m

/-- One pass of Step's inner loop: zero a step component whose axis is
already within the fine tolerance of the target, advance each axis with
remainder carry, recompute derived coordinates, then run the
coarse-tolerance stage.  Returns the new state and the two remainders. -/
def mapEntity.loopBody (m : mapEntity) (stepX stepY : ℚ) : mapEntity × ℚ × ℚ :=
  let sx := if AlmostEqual (m.LocationX - m.TargetX) 0 (1 / 10000) then 0 else stepX
  let sy := if AlmostEqual (m.LocationY - m.TargetY) 0 (1 / 10000) then 0 else stepY
  let px := AdjustWithRemainder m.LocationX sx m.TargetX
  let py := AdjustWithRemainder m.LocationY sy m.TargetY
  let m1 := mapEntity.updateDerived { m with LocationX := px.1, LocationY := py.1 }
  (m1.retargetOrSnap, px.2, py.2)

/-- Step's unbounded inner loop, run on explicit fuel; `none` models the
Go loop not having terminated within the given number of passes.  The
loop exits when both leftover step components are zero. -/
def mapEntity.stepLoop : ℕ → mapEntity → ℚ → ℚ → Option mapEntity
  | 0, _, _, _ => none
  | fuel + 1, m, stepX, stepY =>
    let r := m.loopBody stepX stepY
    if r.2.1 = 0 ∧ r.2.2 = 0 then some r.1
    else mapEntity.stepLoop fuel r.1 r.2.1 r.2.2

/-- Step: if already at the target, fire the completion callback (once)
and clear it; otherwise run the inner loop.  The source computes the step
vector by getStepLength (trigonometric); here that vector is the
parameter (stepX, stepY).  The Go `for` loop carries no cap; fuel
2·|path|+3 is proven sufficient for every state (see the termination
theorem), so `none` never occurs.  The Bool records whether the
completion callback fired during this call. -/
def mapEntity.Step (m : mapEntity) (stepX stepY : ℚ) : Option (mapEntity × Bool) :=
  if m.IsAtTarget then
    if m.done then some ({ m with done := false }, true) else some (m, false)
  else
    (mapEntity.stepLoop (2 * m.path.length + 3) m stepX stepY).map fun m1 => (m1, false)

/-- Iterate Step over a list of per-tick step vectors, counting how many
times the completion callback fired in total. -/
def mapEntity.stepMany : mapEntity → List (ℚ × ℚ) → Option (mapEntity × ℕ)
  | m, [] => some (m, 0)
  | m, (sx, sy) :: rest =>
    match m.Step sx sy with
    | none => none
    | some (m1, fired) =>
      (mapEntity.stepMany m1 rest).map fun p =>
        (p.1, (if fired then 1 else 0) + p.2)

/-- Derived-coordinate coherence: the cached tile and subcell fields agree
with what the source recomputes from the position (Go truncating
conversion and math.Mod). -/
def mapEntity.Derived (m : mapEntity) : Prop :=
  m.TileX = goTrunc (m.LocationX / 5) ∧ m.subcellX = 1 + goMod m.LocationX 5 ∧
    m.TileY = goTrunc (m.LocationY / 5) ∧ m.subcellY = 1 + goMod m.LocationY 5

/-- States reachable through the kernel's public operations from entity
creation. -/
inductive mapEntity.Reachable : mapEntity → Prop
  | create (x y : ℤ) : mapEntity.Reachable (createMapEntity x y)
  | step (m m' : mapEntity) (sx sy : ℚ) (b : Bool) :
      mapEntity.Reachable m → m.Step sx sy = some (m', b) → mapEntity.Reachable m'
  | setPath (m : mapEntity) (p : List PathTile) (d : Bool) :
      mapEntity.Reachable m → mapEntity.Reachable (m.SetPath p d)
  | clearPath (m : mapEntity) :
      mapEntity.Reachable m → mapEntity.Reachable m.ClearPath
  | setSpeed (m : mapEntity) (v : ℚ) :
      mapEntity.Reachable m → mapEntity.Reachable (m.SetSpeed v)
  | setTarget (m : mapEntity) (tx ty : ℚ) (d : Bool) :
      mapEntity.Reachable m → mapEntity.Reachable (m.SetTarget tx ty d)

/-- Projection of the motion-relevant fields, used to state results about
Step without fixing the incidental fields. -/
def mapEntity.motionView (m : mapEntity) : ℚ × ℚ × ℚ × ℚ × List PathTile :=
  (m.LocationX, m.LocationY, m.TargetX, m.TargetY, m.path)

/-- A strictly eastward chain of leg endpoints: each endpoint lies at
least the fine tolerance (0.0001) beyond the previous one. -/
def eastChain : ℚ → List ℚ → Prop
  | _, [] => True
  | x, c :: cs => x + 1 / 10000 ≤ c ∧ eastChain c cs

/-- Last element of a chain, with a default for the empty chain. -/
def lastOf : ℚ → List ℚ → ℚ
  | x, [] => x
  | _, c :: cs => lastOf c cs

/-- Mouse-event handler slots and layout state of d2gui's widgetBase.
Event payload types are parameters; handlers return Unit (they run for
their side effect only). -/
structure widgetBase (E M : Type) where
  x : ℤ
  y : ℤ
  Sx : ℤ
  Sy : ℤ
  layer : ℤ
  visible : Bool
  expanding : Bool
  offsetX : ℤ
  offsetY : ℤ
  mouseEnterHandler : Option (M → Unit)
  mouseLeaveHandler : Option (M → Unit)
  mouseClickHandler : Option (E → Unit)

/-- onMouseEnter: runs the registered handler if any and reports the event
as unhandled.  The first component records whether a handler was invoked,
the second is the method's return value. -/
def widgetBase.onMouseEnter {E M : Type} (w : widgetBase E M) (event : M) : Bool × Bool :=
  match w.mouseEnterHandler with
  | some h => let _ := h event; (true, false)
  | none => (false, false)

/-- onMouseLeave: runs the registered handler if any and reports the event
as unhandled. -/
def widgetBase.onMouseLeave {E M : Type} (w : widgetBase E M) (event : M) : Bool × Bool :=
  match w.mouseLeaveHandler with
  | some h => let _ := h event; (true, false)
  | none => (false, false)

/-- onMouseButtonClick: runs the registered handler if any and reports the
event as unhandled. -/
def widgetBase.onMouseButtonClick {E M : Type} (w : widgetBase E M) (event : E) : Bool × Bool :=
  match w.mouseClickHandler with
  | some h => let _ := h event; (true, false)
  | none => (false, false)

/-- onMouseMove: no handler slot; always unhandled. -/
def widgetBase.onMouseMove {E M : Type} (_ : widgetBase E M) (_ : M) : Bool :=
  false

/-- onMouseOver: no handler slot; always unhandled. -/
def widgetBase.onMouseOver {E M : Type} (_ : widgetBase E M) (_ : M) : Bool :=
  false

/-- onMouseButtonDown: no handler slot; always unhandled. -/
def widgetBase.onMouseButtonDown {E M : Type} (_ : widgetBase E M) (_ : E) : Bool :=
  false

/-- onMouseButtonUp: no handler slot; always unhandled. -/
def widgetBase.onMouseButtonUp {E M : Type} (_ : widgetBase E M) (_ : E) : Bool :=
  false

/-- Concrete entity for the C4 witness: exactly on its target with one
waypoint queued and a registered completion callback. -/
def c4entity : mapEntity :=
  { LocationX := 10, LocationY := 20, TileX := 2, TileY := 4, subcellX := 1, subcellY := 1,
    offsetX := 0, offsetY := 0, TargetX := 10, TargetY := 20, Speed := 6,
    path := [⟨4, 4⟩], drawLayer := 0, done := true, directioner := false }

/-- Concrete entity for the C3 counterexample: at (0,0) heading to
(5,0) with one queued waypoint at tile (1,1), i.e. world (5,5) — the
path turns a corner.  Total leg distance is 5 + 5 = 10. -/
def c3entity : mapEntity :=
  { LocationX := 0, LocationY := 0, TileX := 0, TileY := 0, subcellX := 1, subcellY := 1,
    offsetX := 0, offsetY := 0, TargetX := 5, TargetY := 0, Speed := 6,
    path := [⟨1, 1⟩], drawLayer := 0, done := true, directioner := false }

/-- State in which the Step call of the C3 counterexample ends: the
waypoint was popped into the target (5,5) but the entity stopped at
(5,0), its y-axis step budget having been zeroed on the first leg. -/
def c3result : mapEntity :=
  { LocationX := 5, LocationY := 0, TileX := 1, TileY := 0, subcellX := 1, subcellY := 1,
    offsetX := 0, offsetY := 0, TargetX := 5, TargetY := 5, Speed := 6,
    path := [], drawLayer := 0, done := true, directioner := false }

/-- Concrete entity for the C3 amended witness: at (0,0) heading east to
(5,0) with one queued waypoint at tile (2,0), world (10,0). -/
def eastEntity : mapEntity :=
  { LocationX := 0, LocationY := 0, TileX := 0, TileY := 0, subcellX := 1, subcellY := 1,
    offsetX := 0, offsetY := 0, TargetX := 5, TargetY := 0, Speed := 6,
    path := [⟨2, 0⟩], drawLayer := 0, done := true, directioner := false }

/-- Evaluation rule for goTrunc on a nonnegative argument. -/
theorem goTrunc_eq_of_nonneg (q : ℚ) (z : ℤ) (h0 : 0 ≤ q) (h1 : (z : ℚ) ≤ q)
    (h2 : q < z + 1) : goTrunc q = z := by
  rw [goTrunc, if_pos h0, Int.floor_eq_iff]
  exact ⟨h1, h2⟩

/-- Evaluation rule for goTrunc on a negative argument. -/
theorem goTrunc_eq_of_neg (q : ℚ) (z : ℤ) (h0 : q < 0) (h1 : (z : ℚ) - 1 < q)
    (h2 : q ≤ z) : goTrunc q = z := by
  rw [goTrunc, if_neg (not_le.mpr h0), Int.ceil_eq_iff]
  exact ⟨h1, h2⟩

/-- Value of angleToDirection at 45 degrees. -/
theorem angleToDirection_fortyFive : angleToDirection 45 = 0 := by
  rw [angleToDirection]
  rw [show ((45 : ℚ) - (45 - 360 / 64 / 2)) / (360 / 64) = 1 / 2 by norm_num]
  rw [goTrunc_eq_of_nonneg _ 0 (by norm_num) (by norm_num) (by norm_num)]
  norm_num

/-- Value of angleToDirection at 0 degrees: Go's truncation toward zero
maps -7.5 to -7 (not -8 as flooring would), so the wrap yields 57. -/
theorem angleToDirection_zero : angleToDirection 0 = 57 := by
  rw [angleToDirection]
  rw [show ((0 : ℚ) - (45 - 360 / 64 / 2)) / (360 / 64) = -(15 / 2) by norm_num]
  rw [goTrunc_eq_of_neg _ (-7) (by norm_num) (by norm_num) (by norm_num)]
  norm_num

/-- Value of angleToDirection at 360 degrees. -/
theorem angleToDirection_threeSixty : angleToDirection 360 = 56 := by
  rw [angleToDirection]
  rw [show ((360 : ℚ) - (45 - 360 / 64 / 2)) / (360 / 64) = 113 / 2 by norm_num]
  rw [goTrunc_eq_of_nonneg _ 56 (by norm_num) (by norm_num) (by norm_num)]
  norm_num

/-- AlmostEqual in propositional form. -/
theorem AlmostEqual_iff (a b t : ℚ) : AlmostEqual a b t = true ↔ |a - b| < t := by
  simp [AlmostEqual]

/-- AlmostEqual is false when the distance reaches the tolerance. -/
theorem AlmostEqual_false (a b t : ℚ) (h : t ≤ |a - b|) : AlmostEqual a b t = false := by
  simp [AlmostEqual, not_lt, h]

/-- AlmostEqual is true when the distance is below the tolerance. -/
theorem AlmostEqual_true (a b t : ℚ) (h : |a - b| < t) : AlmostEqual a b t = true := by
  simp [AlmostEqual, h]

/-- A zero adjustment leaves the value unchanged with no remainder. -/
theorem AdjustWithRemainder_zero_adj (src tgt : ℚ) :
    AdjustWithRemainder src 0 tgt = (src, 0) := by
  simp [AdjustWithRemainder]

/-- An adjustment either leaves no remainder or clamps onto the target. -/
theorem AdjustWithRemainder_cases (src adj tgt : ℚ) :
    (AdjustWithRemainder src adj tgt).2 = 0 ∨ (AdjustWithRemainder src adj tgt).1 = tgt := by
  rw [AdjustWithRemainder]
  split_ifs <;> simp

/-- A positive overshooting adjustment clamps onto the target and carries
the overshoot as the remainder. -/
theorem AdjustWithRemainder_clamp (src adj tgt : ℚ) (h1 : 0 < adj) (h2 : tgt < src + adj) :
    AdjustWithRemainder src adj tgt = (tgt, src + adj - tgt) := by
  rw [AdjustWithRemainder]
  rw [if_pos ⟨h1, h2⟩]

/-- C10: every widgetBase mouse event method reports the event as
unhandled (returns false), for every widget state and event — including
when a registered handler is present, in which case the handler is
invoked (first component) yet false is still returned. -/
theorem widgetBase.mouse_events_unhandled {E M : Type} (w : widgetBase E M) (e : E) (ev : M) :
    w.onMouseEnter ev = (w.mouseEnterHandler.isSome, false) ∧
    w.onMouseLeave ev = (w.mouseLeaveHandler.isSome, false) ∧
    w.onMouseButtonClick e = (w.mouseClickHandler.isSome, false) ∧
    w.onMouseMove ev = false ∧ w.onMouseOver ev = false ∧
    w.onMouseButtonDown e = false ∧ w.onMouseButtonUp e = false := by
  refine ⟨?_, ?_, ?_, rfl, rfl, rfl, rfl⟩
  · rcases hw : w.mouseEnterHandler with _ | h <;>
      simp [widgetBase.onMouseEnter, hw]
  · rcases hw : w.mouseLeaveHandler with _ | h <;>
      simp [widgetBase.onMouseLeave, hw]
  · rcases hw : w.mouseClickHandler with _ | h <;>
      simp [widgetBase.onMouseButtonClick, hw]

/-- C9: ClearPath empties the waypoint queue (HasPathFinding is false
afterwards) and leaves position, target, speed, the derived tile and
subcell coordinates, and both callbacks unchanged. -/
theorem mapEntity.clearPath_frame (m : mapEntity) :
    m.ClearPath.path = [] ∧ m.ClearPath.HasPathFinding = false ∧
    m.ClearPath.LocationX = m.LocationX ∧ m.ClearPath.LocationY = m.LocationY ∧
    m.ClearPath.TargetX = m.TargetX ∧ m.ClearPath.TargetY = m.TargetY ∧
    m.ClearPath.Speed = m.Speed ∧
    m.ClearPath.TileX = m.TileX ∧ m.ClearPath.TileY = m.TileY ∧
    m.ClearPath.subcellX = m.subcellX ∧ m.ClearPath.subcellY = m.subcellY ∧
    m.ClearPath.done = m.done ∧ m.ClearPath.directioner = m.directioner := by
  simp [mapEntity.ClearPath, mapEntity.HasPathFinding]

/-- Propositional characterisation of IsAtTarget. -/
theorem mapEntity.isAtTarget_eq_true_iff (m : mapEntity) :
    m.IsAtTarget = true ↔
      |m.LocationX - m.TargetX| < 1 / 10000 ∧ |m.LocationY - m.TargetY| < 1 / 10000 ∧
        m.path = [] := by
  simp [mapEntity.IsAtTarget, mapEntity.HasPathFinding, List.length_eq_zero, and_assoc]

/-- C2: IsAtTarget holds exactly when both axes are within 0.0001 of the
target and the waypoint queue is empty; in particular it is false
whenever the path is non-empty. -/
theorem mapEntity.isAtTarget_iff (m : mapEntity) :
    m.IsAtTarget = true ↔
      |m.LocationX - m.TargetX| < 1 / 10000 ∧ |m.LocationY - m.TargetY| < 1 / 10000 ∧
        m.path = [] :=
  m.isAtTarget_eq_true_iff

/-- IsAtTarget is false while waypoints remain. -/
theorem mapEntity.isAtTarget_false_of_path (m : mapEntity) (h : m.path ≠ []) :
    m.IsAtTarget = false := by
  rcases hb : m.IsAtTarget with _ | _
  · rfl
  · exact absurd ((m.isAtTarget_eq_true_iff).mp hb).2.2 h

/-- C5 counterexample: angleToDirection is not periodic with period 360.
At angle 0 the pre-wrap quotient is -7.5; Go truncates it toward zero to
-7 (the claimed floor would give -8), and the single wrap then yields 57,
while angle 0 + 360 yields 56. -/
theorem angleToDirection_period_counterexample :
    angleToDirection (0 + 360) ≠ angleToDirection 0 ∧
    angleToDirection 0 = 57 ∧ angleToDirection (0 + 360) = 56 := by
  have h1 : angleToDirection (0 + 360) = 56 := by
    rw [show ((0 : ℚ) + 360) = 360 by norm_num]
    exact angleToDirection_threeSixty
  refine ⟨?_, angleToDirection_zero, h1⟩
  rw [h1, angleToDirection_zero]
  decide

/-- C5 amended: angleToDirection truncates (angle − offset)/(360/64)
toward zero — which agrees with the claimed floor formula, single ±64
wrap included, whenever angle ≥ offset — maps 45° to direction 0, and is
periodic with period 360° on the window offset ≤ angle < offset + 360,
where its value also lies in [0, 64). -/
theorem angleToDirection_floor_spec :
    angleToDirection 45 = 0 ∧
    (∀ a : ℚ, 45 - 360 / 64 / 2 ≤ a →
      angleToDirection a =
        if 64 ≤ ⌊(a - (45 - 360 / 64 / 2)) / (360 / 64)⌋ then
          ⌊(a - (45 - 360 / 64 / 2)) / (360 / 64)⌋ - 64
        else ⌊(a - (45 - 360 / 64 / 2)) / (360 / 64)⌋) ∧
    (∀ a : ℚ, 45 - 360 / 64 / 2 ≤ a → a < 45 - 360 / 64 / 2 + 360 →
      0 ≤ angleToDirection a ∧ angleToDirection a < 64 ∧
        angleToDirection (a + 360) = angleToDirection a) := by
  refine ⟨angleToDirection_fortyFive, ?_, ?_⟩
  · intro a ha
    have hx : 0 ≤ (a - (45 - 360 / 64 / 2)) / (360 / 64) :=
      div_nonneg (by linarith) (by norm_num)
    simp only [angleToDirection]
    rw [goTrunc, if_pos hx]
    rcases le_or_lt 64 ⌊(a - (45 - 360 / 64 / 2)) / (360 / 64)⌋ with h | h
    · rw [if_pos h, if_pos h]
    · rw [if_neg (not_le.mpr h), if_neg (not_le.mpr h),
        if_neg (not_lt.mpr (Int.floor_nonneg.mpr hx))]
  · intro a h1 h2
    have hx : 0 ≤ (a - (45 - 360 / 64 / 2)) / (360 / 64) :=
      div_nonneg (by linarith) (by norm_num)
    have hx64 : (a - (45 - 360 / 64 / 2)) / (360 / 64) < 64 := by
      rw [div_lt_iff₀ (by norm_num : (0:ℚ) < 360 / 64)]
      linarith
    have hnd0 : 0 ≤ ⌊(a - (45 - 360 / 64 / 2)) / (360 / 64)⌋ := Int.floor_nonneg.mpr hx
    have hnd64 : ⌊(a - (45 - 360 / 64 / 2)) / (360 / 64)⌋ < 64 := by
      rw [Int.floor_lt]
      exact_mod_cast hx64
    have hval : angleToDirection a = ⌊(a - (45 - 360 / 64 / 2)) / (360 / 64)⌋ := by
      simp only [angleToDirection]
      rw [goTrunc, if_pos hx, if_neg (not_le.mpr hnd64), if_neg (not_lt.mpr hnd0)]
    have hshift : (a + 360 - (45 - 360 / 64 / 2)) / (360 / 64) =
        (a - (45 - 360 / 64 / 2)) / (360 / 64) + 64 := by
      ring
    have hx' : 0 ≤ (a + 360 - (45 - 360 / 64 / 2)) / (360 / 64) := by
      rw [hshift]; linarith
    have hfl : ⌊(a + 360 - (45 - 360 / 64 / 2)) / (360 / 64)⌋ =
        ⌊(a - (45 - 360 / 64 / 2)) / (360 / 64)⌋ + 64 := by
      rw [hshift, show ((64 : ℚ)) = ((64 : ℤ) : ℚ) by norm_num, Int.floor_add_int]
    have hval' : angleToDirection (a + 360) = ⌊(a - (45 - 360 / 64 / 2)) / (360 / 64)⌋ := by
      simp only [angleToDirection]
      rw [goTrunc, if_pos hx', hfl, if_pos (by omega)]
      omega
    exact ⟨by rw [hval]; exact hnd0, by rw [hval]; exact hnd64, by rw [hval, hval']⟩

/-- C5 amended, witness at angle 100: the hypotheses of the window case
hold and the periodicity instance follows from the amended theorem. -/
theorem angleToDirection_floor_spec_witness :
    angleToDirection 45 = 0 ∧ ((45 - 360 / 64 / 2 : ℚ) ≤ 100) ∧
    ((100 : ℚ) < 45 - 360 / 64 / 2 + 360) ∧
    (0 ≤ angleToDirection 100 ∧ angleToDirection 100 < 64 ∧
      angleToDirection (100 + 360) = angleToDirection 100) :=
  ⟨angleToDirection_floor_spec.1, by norm_num, by norm_num,
    angleToDirection_floor_spec.2.2 100 (by norm_num) (by norm_num)⟩

/-- goMod of a nonnegative value by 5 lies in [0, 5). -/
theorem goMod_nonneg_lt_five (x : ℚ) (h : 0 ≤ x) : 0 ≤ goMod x 5 ∧ goMod x 5 < 5 := by
  have h5 : 0 ≤ x / 5 := by positivity
  have hfr : goMod x 5 = 5 * Int.fract (x / 5) := by
    rw [goMod, goTrunc, if_pos h5, Int.fract]
    ring
  constructor
  · rw [hfr]
    have := Int.fract_nonneg (x / 5)
    linarith
  · rw [hfr]
    have := Int.fract_lt_one (x / 5)
    linarith

/-- updateDerived establishes derived-coordinate coherence. -/
theorem mapEntity.updateDerived_derived (m : mapEntity) : m.updateDerived.Derived := by
  simp [mapEntity.updateDerived, mapEntity.Derived]

/-- createMapEntity establishes derived-coordinate coherence. -/
theorem createMapEntity_derived (x y : ℤ) : (createMapEntity x y).Derived := by
  simp [createMapEntity, mapEntity.Derived]

/-- retargetOrSnap preserves derived-coordinate coherence: the pop branch
moves only the target and path, the snap branch re-derives. -/
theorem mapEntity.retargetOrSnap_derived (m : mapEntity) (h : m.Derived) :
    m.retargetOrSnap.Derived := by
  rw [mapEntity.retargetOrSnap]
  split_ifs with hc
  · rcases hp : m.path with _ | ⟨w, rest⟩
    · exact mapEntity.updateDerived_derived _
    · rcases h with ⟨h1, h2, h3, h4⟩
      exact ⟨h1, h2, h3, h4⟩
  · exact h

/-- The state produced by one pass of the inner loop is always
derived-coordinate coherent. -/
theorem mapEntity.loopBody_derived (m : mapEntity) (sx sy : ℚ) :
    (m.loopBody sx sy).1.Derived := by
  rw [mapEntity.loopBody]
  exact mapEntity.retargetOrSnap_derived _ (mapEntity.updateDerived_derived _)

/-- Any state returned by the inner loop is derived-coordinate coherent. -/
theorem mapEntity.stepLoop_derived (fuel : ℕ) (m : mapEntity) (sx sy : ℚ)
    (m' : mapEntity) (h : mapEntity.stepLoop fuel m sx sy = some m') : m'.Derived := by
  induction fuel generalizing m sx sy with
  | zero => exact absurd h (by simp [mapEntity.stepLoop])
  | succ n ih =>
    rw [mapEntity.stepLoop] at h
    split_ifs at h with hz
    · cases h
      exact mapEntity.loopBody_derived m sx sy
    · exact ih _ _ _ h

/-- Step preserves derived-coordinate coherence. -/
theorem mapEntity.step_derived (m m' : mapEntity) (sx sy : ℚ) (b : Bool)
    (hd : m.Derived) (h : m.Step sx sy = some (m', b)) : m'.Derived := by
  rw [mapEntity.Step] at h
  split_ifs at h with h1 h2
  · cases h
    exact hd
  · cases h
    exact hd
  · rcases Option.map_eq_some'.mp h with ⟨m1, hm1, heq⟩
    cases heq
    exact mapEntity.stepLoop_derived _ _ _ _ _ hm1

/-- Every reachable state is derived-coordinate coherent. -/
theorem mapEntity.reachable_derived (m : mapEntity) (h : m.Reachable) : m.Derived := by
  induction h with
  | create x y => exact createMapEntity_derived x y
  | step m m' sx sy b _ hs ih => exact mapEntity.step_derived m m' sx sy b ih hs
  | setPath m p d _ ih => exact ih
  | clearPath m _ ih => exact ih
  | setSpeed m v _ ih => exact ih
  | setTarget m tx ty d _ ih => exact ih

/-- C7 counterexample: at negative coordinates the derived fields are not
floor-based.  createMapEntity(-3, 0) stores TileX = 0 although
floor(-3/5) = -1, and subcellX = -2, outside the claimed range [1, 6). -/
theorem createMapEntity_negative_counterexample :
    (createMapEntity (-3) 0).TileX = 0 ∧ ⌊(createMapEntity (-3) 0).LocationX / 5⌋ = -1 ∧
    (createMapEntity (-3) 0).subcellX = -2 ∧ ¬(1 ≤ (createMapEntity (-3) 0).subcellX) := by
  have ht : goTrunc (((-3 : ℤ) : ℚ) / 5) = 0 :=
    goTrunc_eq_of_neg _ _ (by norm_num) (by norm_num) (by norm_num)
  have hm : goMod ((-3 : ℤ) : ℚ) 5 = -3 := by
    rw [goMod, ht]
    norm_num
  refine ⟨ht, ?_, ?_, ?_⟩
  · show ⌊((-3 : ℤ) : ℚ) / 5⌋ = -1
    norm_num
  · show 1 + goMod ((-3 : ℤ) : ℚ) 5 = -2
    rw [hm]
    norm_num
  · show ¬(1 ≤ 1 + goMod ((-3 : ℤ) : ℚ) 5)
    rw [hm]
    norm_num

/-- C7 amended: after creation and after every Step (indeed in every
reachable state), tileCoord is the truncation toward zero of position/5
and subcell is 1 + Go-fmod(position, 5) on each axis; whenever the
position is nonnegative on an axis these coincide with
floor(position / 5) and a subcell in [1, 6). -/
theorem mapEntity.derived_invariant (m : mapEntity) (h : m.Reachable) :
    (m.TileX = goTrunc (m.LocationX / 5) ∧ m.subcellX = 1 + goMod m.LocationX 5 ∧
     m.TileY = goTrunc (m.LocationY / 5) ∧ m.subcellY = 1 + goMod m.LocationY 5) ∧
    (0 ≤ m.LocationX → m.TileX = ⌊m.LocationX / 5⌋ ∧ 1 ≤ m.subcellX ∧ m.subcellX < 6) ∧
    (0 ≤ m.LocationY → m.TileY = ⌊m.LocationY / 5⌋ ∧ 1 ≤ m.subcellY ∧ m.subcellY < 6) := by
  have hd := m.reachable_derived h
  rcases hd with ⟨h1, h2, h3, h4⟩
  refine ⟨⟨h1, h2, h3, h4⟩, ?_, ?_⟩
  · intro hx
    have hq : 0 ≤ m.LocationX / 5 := by positivity
    have hmod := goMod_nonneg_lt_five m.LocationX hx
    refine ⟨?_, ?_, ?_⟩
    · rw [h1, goTrunc, if_pos hq]
    · rw [h2]; linarith [hmod.1]
    · rw [h2]; linarith [hmod.2]
  · intro hy
    have hq : 0 ≤ m.LocationY / 5 := by positivity
    have hmod := goMod_nonneg_lt_five m.LocationY hy
    refine ⟨?_, ?_, ?_⟩
    · rw [h3, goTrunc, if_pos hq]
    · rw [h4]; linarith [hmod.1]
    · rw [h4]; linarith [hmod.2]

/-- C7 amended, witness: the freshly created entity at (2, 3) satisfies
the nonnegative-case bounds. -/
theorem mapEntity.derived_invariant_witness :
    (createMapEntity 2 3).TileX = ⌊(createMapEntity 2 3).LocationX / 5⌋ ∧
    1 ≤ (createMapEntity 2 3).subcellX ∧ (createMapEntity 2 3).subcellX < 6 :=
  (mapEntity.derived_invariant (createMapEntity 2 3) (mapEntity.Reachable.create 2 3)).2.1
    (by norm_num [createMapEntity])

/-- C6 counterexample: GetPositionF is offset from position/TILE_SIZE by
exactly 1/5 (from the `1 +` in the subcell), far beyond floating
tolerance: the entity created at the origin reports (1/5, 1/5). -/
theorem getPositionF_offset_counterexample :
    (createMapEntity 0 0).GetPositionF.1 = 1 / 5 ∧
    (createMapEntity 0 0).LocationX / 5 = 0 ∧ ((1 : ℚ) / 5) ≠ 0 := by
  have ht : goTrunc (((0 : ℤ) : ℚ) / 5) = 0 :=
    goTrunc_eq_of_nonneg _ _ (by norm_num) (by norm_num) (by norm_num)
  refine ⟨?_, by simp [createMapEntity], by norm_num⟩
  show (goTrunc (((0 : ℤ) : ℚ) / 5) : ℚ) + (1 + goMod ((0 : ℤ) : ℚ) 5) / 5 = 1 / 5
  rw [ht, goMod, ht]
  norm_num

/-- C6 amended: in every reachable state, GetPositionF equals
position/TILE_SIZE shifted by the constant 1/5 on each axis (exactly, in
rational arithmetic). -/
theorem mapEntity.getPositionF_linear (m : mapEntity) (h : m.Reachable) :
    m.GetPositionF = (m.LocationX / 5 + 1 / 5, m.LocationY / 5 + 1 / 5) := by
  rcases m.reachable_derived h with ⟨h1, h2, h3, h4⟩
  rw [mapEntity.GetPositionF, h1, h2, h3, h4, goMod, goMod, Prod.mk.injEq]
  constructor <;> ring

/-- C6 amended, witness: the entity created at (2, 3) reports sub-tile
position (2/5 + 1/5, 3/5 + 1/5) = (3/5, 4/5). -/
theorem mapEntity.getPositionF_linear_witness :
    (createMapEntity 2 3).GetPositionF = (3 / 5, 4 / 5) := by
  have h := mapEntity.getPositionF_linear (createMapEntity 2 3) (mapEntity.Reachable.create 2 3)
  rw [h]
  norm_num [createMapEntity]

/-- Step at the target with a registered callback fires it and clears it. -/
theorem mapEntity.step_at_target_done (m : mapEntity) (sx sy : ℚ)
    (h1 : m.IsAtTarget = true) (h2 : m.done = true) :
    m.Step sx sy = some ({ m with done := false }, true) := by
  rw [mapEntity.Step, if_pos h1, if_pos h2]

/-- Step at the target with no registered callback is a no-op. -/
theorem mapEntity.step_at_target_idle (m : mapEntity) (sx sy : ℚ)
    (h1 : m.IsAtTarget = true) (h2 : m.done = false) :
    m.Step sx sy = some (m, false) := by
  rw [mapEntity.Step, if_pos h1, if_neg]
  simp [h2]

/-- Unfolding rule for stepMany on a non-empty list of step vectors. -/
theorem mapEntity.stepMany_cons (m : mapEntity) (sx sy : ℚ) (rest : List (ℚ × ℚ)) :
    m.stepMany ((sx, sy) :: rest) =
      match m.Step sx sy with
      | none => none
      | some (m1, fired) =>
        (m1.stepMany rest).map fun p => (p.1, (if fired then 1 else 0) + p.2) := rfl

/-- Iterated Step from an at-target state with no callback never moves
the entity and never fires. -/
theorem mapEntity.stepMany_idle (svs : List (ℚ × ℚ)) (m : mapEntity)
    (h1 : m.IsAtTarget = true) (h2 : m.done = false) :
    m.stepMany svs = some (m, 0) := by
  induction svs with
  | nil => rfl
  | cons sv rest ih =>
    obtain ⟨sx, sy⟩ := sv
    rw [mapEntity.stepMany_cons, mapEntity.step_at_target_idle m sx sy h1 h2]
    simp [ih]

/-- C1: a Step call in an at-target state with a registered completion
callback fires the callback exactly once and clears it; across any
number of subsequent Step calls (no intervening SetTarget or SetPath)
the state stays fixed and the callback never fires again — the total
fire count over the whole sequence is exactly 1. -/
theorem mapEntity.step_at_target_fires_once (m : mapEntity) (sx sy : ℚ)
    (svs : List (ℚ × ℚ)) (h1 : m.IsAtTarget = true) (h2 : m.done = true) :
    m.stepMany ((sx, sy) :: svs) = some ({ m with done := false }, 1) := by
  rw [mapEntity.stepMany_cons, mapEntity.step_at_target_done m sx sy h1 h2]
  have h1' : ({ m with done := false } : mapEntity).IsAtTarget = true := h1
  simp [mapEntity.stepMany_idle svs _ h1' rfl]

/-- C1 witness: a concrete at-target entity with a registered callback,
stepped three times; the callback fires exactly once. -/
theorem mapEntity.step_at_target_fires_once_witness :
    ({ createMapEntity 0 0 with done := true } : mapEntity).IsAtTarget = true ∧
    ({ createMapEntity 0 0 with done := true } : mapEntity).stepMany [(1, 0), (2, 0), (3, 0)] =
      some ({ createMapEntity 0 0 with done := false }, 1) := by
  have hAt : ({ createMapEntity 0 0 with done := true } : mapEntity).IsAtTarget = true := by
    rw [mapEntity.isAtTarget_eq_true_iff]
    refine ⟨?_, ?_, rfl⟩ <;> norm_num [createMapEntity]
  exact ⟨hAt, mapEntity.step_at_target_fires_once _ 1 0 [(2, 0), (3, 0)] hAt rfl⟩

/-- Pop form of retargetOrSnap with propositional hypotheses. -/
theorem mapEntity.retargetOrSnap_pop (m : mapEntity) (w : PathTile) (rest : List PathTile)
    (hp : m.path = w :: rest)
    (hx : |m.LocationX - m.TargetX| < 1 / 100) (hy : |m.LocationY - m.TargetY| < 1 / 100) :
    m.retargetOrSnap = { m with TargetX := w.X * 5, TargetY := w.Y * 5, path := rest } := by
  have hc : (AlmostEqual m.LocationX m.TargetX (1 / 100) &&
      AlmostEqual m.LocationY m.TargetY (1 / 100)) = true := by
    rw [AlmostEqual_true _ _ _ hx, AlmostEqual_true _ _ _ hy]
    rfl
  rw [mapEntity.retargetOrSnap, if_pos hc, hp]
  rfl

/-- C4: during Step's inner loop, whenever both axes are within the
coarse tolerance 0.01 of the target and the waypoint queue is non-empty,
exactly the head waypoint is removed, the target becomes that waypoint's
tile indices times TILE_SIZE = 5, and the completion callback (done) is
retained unchanged, so completion can only fire on the final leg. -/
theorem mapEntity.step_coarse_pops_one (m : mapEntity) (w : PathTile) (rest : List PathTile)
    (hp : m.path = w :: rest)
    (hx : AlmostEqual m.LocationX m.TargetX (1 / 100) = true)
    (hy : AlmostEqual m.LocationY m.TargetY (1 / 100) = true) :
    m.retargetOrSnap = { m with TargetX := w.X * 5, TargetY := w.Y * 5, path := rest } :=
  m.retargetOrSnap_pop w rest hp ((AlmostEqual_iff _ _ _).mp hx) ((AlmostEqual_iff _ _ _).mp hy)

/-- C4 witness: the queued waypoint (4, 4) is popped into target (20, 20),
the queue empties, and the callback is retained. -/
theorem mapEntity.step_coarse_pops_one_witness :
    c4entity.retargetOrSnap =
      { c4entity with TargetX := (4 : ℚ) * 5, TargetY := (4 : ℚ) * 5, path := [] } :=
  mapEntity.step_coarse_pops_one c4entity ⟨4, 4⟩ [] rfl
    (AlmostEqual_true _ _ _ (by norm_num [c4entity]))
    (AlmostEqual_true _ _ _ (by norm_num [c4entity]))

/-- Unfolding rule for one pass of the fuelled inner loop. -/
theorem mapEntity.stepLoop_succ (fuel : ℕ) (m : mapEntity) (sx sy : ℚ) :
    mapEntity.stepLoop (fuel + 1) m sx sy =
      (if (m.loopBody sx sy).2.1 = 0 ∧ (m.loopBody sx sy).2.2 = 0 then some (m.loopBody sx sy).1
       else mapEntity.stepLoop fuel (m.loopBody sx sy).1 (m.loopBody sx sy).2.1
         (m.loopBody sx sy).2.2) := rfl

/-- When each axis either has a zero step or already sits on the target,
one pass of the inner loop leaves both remainders zero. -/
theorem mapEntity.loopBody_stable (m : mapEntity) (sx sy : ℚ)
    (hx : sx = 0 ∨ m.LocationX = m.TargetX) (hy : sy = 0 ∨ m.LocationY = m.TargetY) :
    (m.loopBody sx sy).2.1 = 0 ∧ (m.loopBody sx sy).2.2 = 0 := by
  have ex : (if AlmostEqual (m.LocationX - m.TargetX) 0 (1 / 10000) then 0 else sx) = 0 := by
    rcases hx with h | h
    · split_ifs with hh
      · rfl
      · exact h
    · rw [if_pos]
      exact AlmostEqual_true _ _ _ (by rw [h, sub_self]; norm_num)
  have ey : (if AlmostEqual (m.LocationY - m.TargetY) 0 (1 / 10000) then 0 else sy) = 0 := by
    rcases hy with h | h
    · split_ifs with hh
      · rfl
      · exact h
    · rw [if_pos]
      exact AlmostEqual_true _ _ _ (by rw [h, sub_self]; norm_num)
  simp only [mapEntity.loopBody, ex, ey, AdjustWithRemainder_zero_adj]
  simp

/-- The coarse stage either pops a waypoint (shortening the path by one),
or keeps position and target untouched, or leaves the position exactly
on the target. -/
theorem mapEntity.retargetOrSnap_cases (m1 : mapEntity) :
    m1.retargetOrSnap.path.length + 1 = m1.path.length ∨
    (m1.retargetOrSnap.LocationX = m1.LocationX ∧ m1.retargetOrSnap.LocationY = m1.LocationY ∧
     m1.retargetOrSnap.TargetX = m1.TargetX ∧ m1.retargetOrSnap.TargetY = m1.TargetY) ∨
    (m1.retargetOrSnap.LocationX = m1.retargetOrSnap.TargetX ∧
     m1.retargetOrSnap.LocationY = m1.retargetOrSnap.TargetY) := by
  rw [mapEntity.retargetOrSnap]
  split_ifs with hc
  · rcases hp : m1.path with _ | ⟨w, rest⟩
    · right; right
      simp [mapEntity.updateDerived]
    · left
      simp [hp, mapEntity.SetTarget]
  · right; left
    exact ⟨rfl, rfl, rfl, rfl⟩

/-- One pass of the inner loop either pops a waypoint or reaches a state
from which the next pass necessarily halts (each axis has either a zero
remainder or sits exactly on its target). -/
theorem mapEntity.loopBody_cases (m : mapEntity) (sx sy : ℚ) :
    (m.loopBody sx sy).1.path.length + 1 = m.path.length ∨
    (((m.loopBody sx sy).2.1 = 0 ∨ (m.loopBody sx sy).1.LocationX = (m.loopBody sx sy).1.TargetX) ∧
     ((m.loopBody sx sy).2.2 = 0 ∨ (m.loopBody sx sy).1.LocationY = (m.loopBody sx sy).1.TargetY)) := by
  rw [mapEntity.loopBody]
  have hax := AdjustWithRemainder_cases m.LocationX
    (if AlmostEqual (m.LocationX - m.TargetX) 0 (1 / 10000) then 0 else sx) m.TargetX
  have hay := AdjustWithRemainder_cases m.LocationY
    (if AlmostEqual (m.LocationY - m.TargetY) 0 (1 / 10000) then 0 else sy) m.TargetY
  rcases (mapEntity.updateDerived { m with
      LocationX := (AdjustWithRemainder m.LocationX
        (if AlmostEqual (m.LocationX - m.TargetX) 0 (1 / 10000) then 0 else sx) m.TargetX).1,
      LocationY := (AdjustWithRemainder m.LocationY
        (if AlmostEqual (m.LocationY - m.TargetY) 0 (1 / 10000) then 0 else sy) m.TargetY).1
      }).retargetOrSnap_cases with hpop | hkeep | hsnap
  · left
    simpa [mapEntity.updateDerived] using hpop
  · right
    constructor
    · rcases hax with h | h
      · exact Or.inl h
      · refine Or.inr ?_
        rw [hkeep.1, hkeep.2.2.1]
        simpa [mapEntity.updateDerived] using h
    · rcases hay with h | h
      · exact Or.inl h
      · refine Or.inr ?_
        rw [hkeep.2.1, hkeep.2.2.2]
        simpa [mapEntity.updateDerived] using h
  · right
    exact ⟨Or.inr hsnap.1, Or.inr hsnap.2⟩

/-- Fuel 2·|path| + 2 always suffices for the inner loop: each pass
either halts, pops a waypoint, or is followed by a halting pass. -/
theorem mapEntity.stepLoop_isSome (fuel : ℕ) (m : mapEntity) (sx sy : ℚ)
    (h : 2 * m.path.length + 2 ≤ fuel) :
    (mapEntity.stepLoop fuel m sx sy).isSome = true := by
  induction fuel generalizing m sx sy with
  | zero => omega
  | succ n ih =>
    rw [mapEntity.stepLoop_succ]
    split_ifs with hz
    · rfl
    · rcases m.loopBody_cases sx sy with hpop | hstable
      · exact ih _ _ _ (by omega)
      · obtain ⟨k, rfl⟩ : ∃ k, n = k + 1 := ⟨n - 1, by omega⟩
        rw [mapEntity.stepLoop_succ]
        rw [if_pos ((m.loopBody sx sy).1.loopBody_stable _ _ hstable.1 hstable.2)]
        rfl

/-- C8: Step terminates for every input state and step vector.  The Go
loop carries no explicit cap, but a cap of 2·|path| + 3 passes is never
reached: the fuelled loop always returns a state within that bound, for
every position, target, tolerance interaction, tick duration and speed
(the step vector is arbitrary). -/
theorem mapEntity.step_terminates (m : mapEntity) (sx sy : ℚ) :
    (m.Step sx sy).isSome = true := by
  rw [mapEntity.Step]
  split_ifs with h1 h2
  · rfl
  · rfl
  · rw [Option.isSome_map']
    exact mapEntity.stepLoop_isSome _ m sx sy (by omega)

/-- First loop pass of the C3 counterexample: the x axis clamps onto the
first target carrying remainder 95, the y step is zeroed by the fine
tolerance, and the waypoint (1,1) is popped into target (5,5). -/
theorem c3_first_pass : c3entity.loopBody 100 0 = (c3result, 95, 0) := by
  have ht1 : goTrunc (1 : ℚ) = 1 :=
    goTrunc_eq_of_nonneg _ _ (by norm_num) (by norm_num) (by norm_num)
  have ht0 : goTrunc (0 : ℚ) = 0 :=
    goTrunc_eq_of_nonneg _ _ (by norm_num) (by norm_num) (by norm_num)
  norm_num [mapEntity.loopBody, mapEntity.retargetOrSnap, mapEntity.updateDerived,
    mapEntity.SetTarget, AdjustWithRemainder, AlmostEqual, goMod, ht1, ht0,
    c3entity, c3result]

/-- Second loop pass of the C3 counterexample: the x axis is on target
(step zeroed fine), the y axis gets no budget, the coarse check fails on
y, and both remainders are zero, ending the tick away from (5,5). -/
theorem c3_second_pass : c3result.loopBody 95 0 = (c3result, 0, 0) := by
  have ht1 : goTrunc (1 : ℚ) = 1 :=
    goTrunc_eq_of_nonneg _ _ (by norm_num) (by norm_num) (by norm_num)
  have ht0 : goTrunc (0 : ℚ) = 0 :=
    goTrunc_eq_of_nonneg _ _ (by norm_num) (by norm_num) (by norm_num)
  norm_num [mapEntity.loopBody, mapEntity.retargetOrSnap, mapEntity.updateDerived,
    mapEntity.SetTarget, AdjustWithRemainder, AlmostEqual, goMod, ht1, ht0, c3result]

/-- C3 counterexample: a single Step with step length 100, far above the
total leg distance 10 of the two-leg corner path, does empty the queue
but leaves the entity at (5,0), not at the final target (5,5): a popped
leg orthogonal to the already-zeroed axis can never be travelled within
the same tick. -/
theorem mapEntity.step_overshoot_corner_counterexample :
    (5 - (0 : ℚ)) + (5 - 0) < 100 ∧
    c3entity.Step 100 0 = some (c3result, false) ∧
    c3result.path = [] ∧ c3result.LocationX = 5 ∧ c3result.LocationY = 0 ∧
    c3result.TargetX = 5 ∧ c3result.TargetY = 5 ∧ (0 : ℚ) ≠ 5 := by
  refine ⟨by norm_num, ?_, rfl, rfl, rfl, rfl, rfl, by norm_num⟩
  have hne : c3entity.IsAtTarget = false :=
    c3entity.isAtTarget_false_of_path (by simp [c3entity])
  rw [mapEntity.Step, if_neg (by simp [hne])]
  rw [show 2 * c3entity.path.length + 3 = 4 + 1 by simp [c3entity]]
  rw [mapEntity.stepLoop_succ, c3_first_pass]
  rw [if_neg (by norm_num)]
  dsimp only
  rw [show (4 : ℕ) = 3 + 1 from rfl, mapEntity.stepLoop_succ, c3_second_pass]
  dsimp only
  rw [if_pos ⟨rfl, rfl⟩]
  rfl

/-- The head of an eastward chain is bounded by the chain's last entry. -/
theorem le_lastOf (x : ℚ) (cs : List ℚ) (h : eastChain x cs) : x ≤ lastOf x cs := by
  induction cs generalizing x with
  | nil => exact le_refl x
  | cons c cs ih =>
    simp only [eastChain] at h
    calc x ≤ c := by linarith [h.1]
    _ ≤ lastOf c cs := ih c h.2

/-- Snap form of retargetOrSnap with propositional hypotheses. -/
theorem mapEntity.retargetOrSnap_snap (m : mapEntity) (hp : m.path = [])
    (hx : |m.LocationX - m.TargetX| < 1 / 100) (hy : |m.LocationY - m.TargetY| < 1 / 100) :
    m.retargetOrSnap =
      mapEntity.updateDerived { m with LocationX := m.TargetX, LocationY := m.TargetY } := by
  have hc : (AlmostEqual m.LocationX m.TargetX (1 / 100) &&
      AlmostEqual m.LocationY m.TargetY (1 / 100)) = true := by
    rw [AlmostEqual_true _ _ _ hx, AlmostEqual_true _ _ _ hy]
    rfl
  rw [mapEntity.retargetOrSnap, if_pos hc, hp]

/-- One pass along an eastward leg whose remaining distance is at least
the fine tolerance and whose step budget overshoots the target: the x
axis clamps onto the target with the overshoot as remainder, the y axis
(already on target) is zeroed. -/
theorem mapEntity.loopBody_east (m : mapEntity) (L : ℚ)
    (hy : m.LocationY = m.TargetY)
    (hfar : m.LocationX + 1 / 10000 ≤ m.TargetX)
    (hover : m.TargetX < m.LocationX + L) :
    m.loopBody L 0 =
      ((mapEntity.updateDerived { m with LocationX := m.TargetX }).retargetOrSnap,
        m.LocationX + L - m.TargetX, 0) := by
  have hxf : AlmostEqual (m.LocationX - m.TargetX) 0 (1 / 10000) = false := by
    apply AlmostEqual_false
    rw [sub_zero, abs_of_nonpos (by linarith)]
    linarith
  have hyt : AlmostEqual (m.LocationY - m.TargetY) 0 (1 / 10000) = true := by
    apply AlmostEqual_true
    rw [hy, sub_self, sub_zero, abs_zero]
    norm_num
  have hL : 0 < L := by linarith
  rw [mapEntity.loopBody, hxf, hyt]
  norm_num [AdjustWithRemainder_zero_adj, AdjustWithRemainder_clamp _ _ _ hL hover]

/-- Eastward leg with waypoints remaining: the pass additionally pops the
head waypoint into the new target, keeping the completion callback. -/
theorem mapEntity.loopBody_east_pop (m : mapEntity) (L : ℚ) (w : PathTile)
    (rest : List PathTile) (hp : m.path = w :: rest)
    (hy : m.LocationY = m.TargetY)
    (hfar : m.LocationX + 1 / 10000 ≤ m.TargetX)
    (hover : m.TargetX < m.LocationX + L) :
    m.loopBody L 0 =
      ({ mapEntity.updateDerived { m with LocationX := m.TargetX } with
          TargetX := w.X * 5, TargetY := w.Y * 5, path := rest },
        m.LocationX + L - m.TargetX, 0) := by
  rw [m.loopBody_east L hy hfar hover]
  rw [mapEntity.retargetOrSnap_pop _ w rest (by simpa [mapEntity.updateDerived] using hp)
    (by simp [mapEntity.updateDerived])
    (by simp [mapEntity.updateDerived, hy])]

/-- Eastward leg with an empty queue: the pass snaps exactly onto the
target. -/
theorem mapEntity.loopBody_east_snap (m : mapEntity) (L : ℚ) (hp : m.path = [])
    (hy : m.LocationY = m.TargetY)
    (hfar : m.LocationX + 1 / 10000 ≤ m.TargetX)
    (hover : m.TargetX < m.LocationX + L) :
    m.loopBody L 0 =
      (mapEntity.updateDerived { m with LocationX := m.TargetX, LocationY := m.TargetY },
        m.LocationX + L - m.TargetX, 0) := by
  rw [m.loopBody_east L hy hfar hover]
  rw [mapEntity.retargetOrSnap_snap _ (by simpa [mapEntity.updateDerived] using hp)
    (by simp [mapEntity.updateDerived])
    (by simp [mapEntity.updateDerived, hy])]
  simp [mapEntity.updateDerived]

/-- A pass from a state exactly on target with an empty queue changes
nothing but the derived coordinates and leaves no remainder. -/
theorem mapEntity.loopBody_on_target (m : mapEntity) (sx sy : ℚ)
    (h1 : m.LocationX = m.TargetX) (h2 : m.LocationY = m.TargetY) (h3 : m.path = []) :
    m.loopBody sx sy = (m.updateDerived, 0, 0) := by
  have hxt : AlmostEqual (m.LocationX - m.TargetX) 0 (1 / 10000) = true := by
    apply AlmostEqual_true
    rw [h1, sub_self, sub_zero, abs_zero]
    norm_num
  have hyt : AlmostEqual (m.LocationY - m.TargetY) 0 (1 / 10000) = true := by
    apply AlmostEqual_true
    rw [h2, sub_self, sub_zero, abs_zero]
    norm_num
  rw [mapEntity.loopBody, hxt, hyt]
  norm_num [AdjustWithRemainder_zero_adj]
  rw [mapEntity.retargetOrSnap_snap _ (by simpa [mapEntity.updateDerived] using h3)
    (by simp [mapEntity.updateDerived, h1])
    (by simp [mapEntity.updateDerived, h2])]
  simp [mapEntity.updateDerived, h1, h2]

/-- Inner-loop run along a strictly eastward path whose step budget
exceeds the total remaining distance: every waypoint is consumed and the
run halts exactly on the last endpoint. -/
theorem mapEntity.eastLoop (ws : List PathTile) :
    ∀ (fuel : ℕ) (m : mapEntity) (L : ℚ),
      m.path = ws → m.LocationY = m.TargetY →
      (∀ w ∈ ws, w.Y * 5 = m.TargetY) →
      eastChain m.LocationX (m.TargetX :: ws.map fun w => w.X * 5) →
      lastOf m.TargetX (ws.map fun w => w.X * 5) < m.LocationX + L →
      2 * ws.length + 2 ≤ fuel →
      ∃ mf, mapEntity.stepLoop fuel m L 0 = some mf ∧
        mf.LocationX = lastOf m.TargetX (ws.map fun w => w.X * 5) ∧
        mf.LocationY = m.TargetY ∧
        mf.TargetX = lastOf m.TargetX (ws.map fun w => w.X * 5) ∧
        mf.TargetY = m.TargetY ∧ mf.path = [] := by
  induction ws with
  | nil =>
    intro fuel m L hp hy hws hchain hlast hfuel
    simp only [List.map_nil, eastChain, and_true] at hchain
    simp only [List.map_nil, lastOf] at hlast ⊢
    have hr : 0 < m.LocationX + L - m.TargetX := by linarith
    obtain ⟨k, rfl⟩ : ∃ k, fuel = k + 1 + 1 := ⟨fuel - 2, by omega⟩
    rw [mapEntity.stepLoop_succ, m.loopBody_east_snap L hp hy hchain hlast]
    rw [if_neg (by dsimp only; exact fun hcon => absurd hcon.1 (ne_of_gt hr))]
    dsimp only
    rw [mapEntity.stepLoop_succ]
    rw [mapEntity.loopBody_on_target
      (mapEntity.updateDerived { m with LocationX := m.TargetX, LocationY := m.TargetY })
      (m.LocationX + L - m.TargetX) 0 rfl rfl hp]
    rw [if_pos ⟨rfl, rfl⟩]
    exact ⟨_, rfl, rfl, rfl, rfl, rfl, hp⟩
  | cons w ws ih =>
    intro fuel m L hp hy hws hchain hlast hfuel
    simp only [List.map_cons, eastChain] at hchain
    obtain ⟨h1, h2⟩ := hchain
    simp only [List.map_cons, lastOf] at hlast ⊢
    have htx_le : m.TargetX ≤ lastOf (w.X * 5) (ws.map fun v => v.X * 5) := by
      have hh : eastChain m.TargetX ((w.X * 5) :: ws.map fun v => v.X * 5) := h2
      simpa [lastOf] using le_lastOf _ _ hh
    have hover : m.TargetX < m.LocationX + L := lt_of_le_of_lt htx_le hlast
    have hr : 0 < m.LocationX + L - m.TargetX := by linarith
    obtain ⟨k, rfl⟩ : ∃ k, fuel = k + 1 := ⟨fuel - 1, by omega⟩
    rw [mapEntity.stepLoop_succ, m.loopBody_east_pop L w ws hp hy h1 hover]
    rw [if_neg (by dsimp only; exact fun hcon => absurd hcon.1 (ne_of_gt hr))]
    dsimp only
    have hwY : w.Y * 5 = m.TargetY := hws w (List.mem_cons_self w ws)
    obtain ⟨mf, hsome, hfx, hfy, hftx, hfty, hfp⟩ :=
      ih k ({ mapEntity.updateDerived { m with LocationX := m.TargetX } with
          TargetX := w.X * 5, TargetY := w.Y * 5, path := ws })
        (m.LocationX + L - m.TargetX) rfl
        (show m.LocationY = w.Y * 5 by rw [hwY, hy])
        (fun v hv => (hws v (List.mem_cons_of_mem w hv)).trans hwY.symm)
        h2
        (show lastOf (w.X * 5) (ws.map fun w => w.X * 5) <
          m.TargetX + (m.LocationX + L - m.TargetX) by linarith)
        (by simp only [List.length_cons] at hfuel; omega)
    refine ⟨mf, hsome, hfx, ?_, hftx, ?_, hfp⟩
    · rw [hfy, hwY]
    · rw [hfty, hwY]

/-- C3 amended: restricted to a strictly eastward collinear route (each
leg at least the fine tolerance long, all waypoints on the entity's row)
whose step budget exceeds the total remaining distance, a single Step
consumes every waypoint and ends exactly on the final target.  The
unrestricted claim fails for paths that turn (see the corner
counterexample): a popped leg on an axis whose step component was zeroed
cannot be travelled in the same tick. -/
theorem mapEntity.step_consumes_east_path (m : mapEntity) (L : ℚ)
    (hne : m.path ≠ [])
    (hy : m.LocationY = m.TargetY)
    (hws : ∀ w ∈ m.path, w.Y * 5 = m.TargetY)
    (hchain : eastChain m.LocationX (m.TargetX :: m.path.map fun w => w.X * 5))
    (hL : lastOf m.TargetX (m.path.map fun w => w.X * 5) < m.LocationX + L) :
    (m.Step L 0).map (fun p => (p.1.motionView, p.2)) =
      some ((lastOf m.TargetX (m.path.map fun w => w.X * 5), m.TargetY,
        lastOf m.TargetX (m.path.map fun w => w.X * 5), m.TargetY, []), false) := by
  obtain ⟨mf, hsome, hfx, hfy, hftx, hfty, hfp⟩ :=
    mapEntity.eastLoop m.path (2 * m.path.length + 3) m L rfl hy hws hchain hL (by omega)
  rw [mapEntity.Step, if_neg (by simp [m.isAtTarget_false_of_path hne])]
  rw [hsome]
  simp [mapEntity.motionView, hfx, hfy, hftx, hfty, hfp]

/-- C3 amended, witness: a step budget of 100 against total distance 10
on the straight eastward route consumes the waypoint and lands exactly
on (10, 0) with an empty queue. -/
theorem mapEntity.step_consumes_east_path_witness :
    (eastEntity.Step 100 0).map (fun p => (p.1.motionView, p.2)) =
      some ((10, 0, 10, 0, []), false) := by
  have h := mapEntity.step_consumes_east_path eastEntity 100
    (by simp [eastEntity])
    rfl
    (by
      intro w hw
      simp only [eastEntity, List.mem_singleton] at hw
      subst hw
      norm_num [eastEntity])
    (by norm_num [eastChain, eastEntity])
    (by norm_num [lastOf, eastEntity])
  simpa [eastEntity, lastOf, show (2 : ℚ) * 5 = 10 by norm_num] using h
